import Mathlib

/-!
Shallow embedding of the data pipeline of `app.py` (Touchpoint legal-intake
dashboard): date/number normalization (`parse_date`, `to_float`), row loading
(`load_rows` over `csv.DictReader` semantics), filtering (`filter_rows` plus
the top-level keyword filter), and the KPI aggregation (`kpi_values` and the
per-counsel statistics of tab 3).

Modelling conventions:
- Python `datetime.date` values are triples of naturals compared
  lexicographically (which is exactly how Python compares dates).
- Python floats are modelled as exact rationals `ℚ`.
- A row (a dict produced by `csv.DictReader` and extended by `load_rows`) is
  an insertion-ordered association list from keys to values; keys are either
  column-name strings or the `DictReader` rest key (Python `None`), values
  are strings, `None`, parsed dates, parsed floats, or the list of extra
  cells stored under the rest key.
- `date.today()` is passed explicitly as a `today` parameter.
-/

/-- Python `str.strip()` with no argument: remove leading and trailing
whitespace (modelled for the ASCII whitespace characters). -/
def isSpaceChar (c : Char) : Bool :=
  c == ' ' || c == '\t' || c == '\n' || c == '\r' || c == '\x0b' || c == '\x0c'

/-- Python `str.strip()`; see `isSpaceChar`. -/
def pyStrip (s : String) : String :=
  ⟨((s.data.dropWhile isSpaceChar).reverse.dropWhile isSpaceChar).reverse⟩

/-- Python `str.lower()` on one character (modelled for the ASCII range;
every string the pipeline lowers here is ASCII). -/
def lowerChar (c : Char) : Char :=
  if c.toNat ≥ 65 ∧ c.toNat ≤ 90 then Char.ofNat (c.toNat + 32) else c

/-- Python `str.lower()`; see `lowerChar`. -/
def pyLower (s : String) : String :=
  ⟨s.data.map lowerChar⟩

/-- Model of Python `datetime.date`: year, month, day. -/
structure PyDate where
  year : Nat
  month : Nat
  day : Nat
deriving DecidableEq

/-- Python `date` comparison `a < b`: lexicographic on (year, month, day). -/
def dateLt (a b : PyDate) : Bool :=
  decide (a.year < b.year ∨ (a.year = b.year ∧
    (a.month < b.month ∨ (a.month = b.month ∧ a.day < b.day))))

/-- Python `date` comparison `a <= b`: lexicographic on (year, month, day). -/
def dateLe (a b : PyDate) : Bool :=
  decide (a.year < b.year ∨ (a.year = b.year ∧
    (a.month < b.month ∨ (a.month = b.month ∧ a.day ≤ b.day))))

/-- Gregorian leap-year rule used by `datetime.date` validity checking. -/
def isLeap (y : Nat) : Bool :=
  y % 4 == 0 && (y % 100 != 0 || y % 400 == 0)

/-- Number of days in a month, as enforced by the `datetime.date` constructor. -/
def daysInMonth (y m : Nat) : Nat :=
  if m = 2 then (if isLeap y then 29 else 28)
  else if m = 4 ∨ m = 6 ∨ m = 9 ∨ m = 11 then 30
  else 31

/-- The `datetime.date(y, m, d)` constructor: `some` on a valid date,
`none` when the constructor would raise `ValueError`.  Month validity and
`d ≥ 1` are already guaranteed by the `strptime` regexes below, but we keep
the checks for faithfulness. -/
def mkDate (y m d : Nat) : Option PyDate :=
  if 1 ≤ y ∧ y ≤ 9999 ∧ 1 ≤ m ∧ m ≤ 12 ∧ 1 ≤ d ∧ d ≤ daysInMonth y m then
    some ⟨y, m, d⟩
  else none

/-- Decimal value of an ASCII digit character. -/
def digitVal (c : Char) : Option Nat :=
  if c.isDigit then some (c.toNat - 48) else none

/-- Two-digit numeric field of `strptime` (`%d`/`%m`): two digits whose value
lies in `[1, hi]` (the zero value "00" is not matched by the regex). -/
def num2 (hi : Nat) : List Char → Option (Nat × List Char)
  | c1 :: c2 :: rest =>
    match digitVal c1, digitVal c2 with
    | some d1, some d2 =>
      let v := d1 * 10 + d2
      if 1 ≤ v ∧ v ≤ hi then some (v, rest) else none
    | _, _ => none
  | _ => none

/-- One-digit numeric field of `strptime` (`%d`/`%m` without zero padding):
a single digit in `[1, 9]`. -/
def num1 : List Char → Option (Nat × List Char)
  | c :: rest =>
    match digitVal c with
    | some d => if 1 ≤ d ∧ d ≤ 9 then some (d, rest) else none
    | none => none
  | [] => none

/-- Four-digit year field of `strptime` (`%Y` matches exactly four digits). -/
def num4 : List Char → Option (Nat × List Char)
  | c1 :: c2 :: c3 :: c4 :: rest =>
    match digitVal c1, digitVal c2, digitVal c3, digitVal c4 with
    | some a, some b, some c, some d => some (a * 1000 + b * 100 + c * 10 + d, rest)
    | _, _, _, _ => none
  | _ => none

/-- A literal character of the format string. -/
def litChar (ch : Char) : List Char → Option (List Char)
  | c :: rest => if c == ch then some rest else none
  | [] => none

/-- A `%d` or `%m` component with the regex engine's backtracking: the
two-digit alternatives are tried first; if the remainder of the match fails,
the single-digit alternative is retried. -/
def dayOrMonth (hi : Nat) (cs : List Char) (k : Nat → List Char → Option PyDate) :
    Option PyDate :=
  (match num2 hi cs with
   | some (v, rest) => k v rest
   | none => none) <|>
  (match num1 cs with
   | some (v, rest) => k v rest
   | none => none)

/-- `strptime(s, "%d/%m/%Y")` followed by `datetime.date` construction;
the whole string must be consumed. -/
def parseDMY (cs : List Char) : Option PyDate :=
  dayOrMonth 31 cs fun d cs1 =>
    match litChar slashChar cs1 with
    | none => none
    | some cs2 =>
      dayOrMonth 12 cs2 fun m cs3 =>
        match litChar slashChar cs3 with
        | none => none
        | some cs4 =>
          match num4 cs4 with
          | some (y, []) => mkDate y m d
          | _ => none
where slashChar : Char := '/'

/-- `strptime(s, "%Y-%m-%d")` followed by `datetime.date` construction. -/
def parseYMD (cs : List Char) : Option PyDate :=
  match num4 cs with
  | some (y, cs1) =>
    match litChar dashChar cs1 with
    | none => none
    | some cs2 =>
      dayOrMonth 12 cs2 fun m cs3 =>
        match litChar dashChar cs3 with
        | none => none
        | some cs4 =>
          dayOrMonth 31 cs4 fun d cs5 =>
            match cs5 with
            | [] => mkDate y m d
            | _ => none
  | none => none
where dashChar : Char := '-'

/-- `strptime(s, "%m/%d/%Y")` followed by `datetime.date` construction. -/
def parseMDY (cs : List Char) : Option PyDate :=
  dayOrMonth 12 cs fun m cs1 =>
    match litChar slashChar cs1 with
    | none => none
    | some cs2 =>
      dayOrMonth 31 cs2 fun d cs3 =>
        match litChar slashChar cs3 with
        | none => none
        | some cs4 =>
          match num4 cs4 with
          | some (y, []) => mkDate y m d
          | _ => none
where slashChar : Char := '/'

/-- The format loop of `parse_date` (app.py lines 22-26): the three formats
`"%d/%m/%Y"`, `"%Y-%m-%d"`, `"%m/%d/%Y"` are tried in that order on the
trimmed string and the first success is returned. -/
def parse_date_str (s : String) : Option PyDate :=
  parseDMY s.data <|> parseYMD s.data <|> parseMDY s.data

/-- Keys of a row dict: a column-name string, or the `csv.DictReader`
rest key (Python `None`) that collects extra cells of an over-long row. -/
inductive PyKey where
  | s (k : String)
  | restkey
deriving DecidableEq

/-- Values stored in a row dict: a raw string cell, Python `None`, a parsed
`datetime.date`, a parsed float (modelled as `ℚ`), or the list of extra
string cells stored under the rest key. -/
inductive PyVal where
  | vNone
  | vStr (s : String)
  | vDate (d : PyDate)
  | vFloat (x : ℚ)
  | vRest (extras : List String)
deriving DecidableEq

/-- Python truthiness of the values that can appear in a row. -/
def PyVal.truthy : PyVal → Bool
  | .vNone => false
  | .vStr s => !(s == "")
  | .vDate _ => true
  | .vFloat x => !(x == 0)
  | .vRest extras => !extras.isEmpty

/-- A row: the insertion-ordered association list behind the Python dict. -/
def Row := List (PyKey × PyVal)

instance : DecidableEq Row := by
  unfold Row
  infer_instance

/-- Dict lookup: first binding of the key (keys are unique in a dict). -/
def Row.find : Row → PyKey → Option PyVal
  | [], _ => none
  | (k2, v) :: rest, k => if k2 = k then some v else Row.find rest k

/-- Python `r.get(k, dflt)`. -/
def Row.getD (r : Row) (k : String) (dflt : PyVal) : PyVal :=
  match Row.find r (PyKey.s k) with
  | some v => v
  | none => dflt

/-- Python `r.get(k)` (default `None`); also models `r[k]` for keys that
`load_rows` always populates. -/
def Row.getVal (r : Row) (k : String) : PyVal :=
  Row.getD r k PyVal.vNone

/-- The idiom `(r.get(k) or "")`: the stored string, or `""` when the key is
missing, holds `None`, or holds the empty string.  In the pipeline the keys
read this way only ever hold strings or `None`. -/
def Row.getStr (r : Row) (k : String) : String :=
  match Row.getVal r k with
  | .vStr s => s
  | _ => ""

/-- Reading a derived date field (`r.get("Date Submitted Parsed")` followed by
an `is None` test): the date if one was stored, otherwise absence.  After
`load_rows` the field is always a date or `None`. -/
def Row.getDate (r : Row) (k : String) : Option PyDate :=
  match Row.getVal r k with
  | .vDate d => some d
  | _ => none

/-- Reading a derived float field (`r["Turnaround Float"]` followed by an
`is not None` test).  After `load_rows` the field is always a float or
`None`. -/
def Row.getFloat (r : Row) (k : String) : Option ℚ :=
  match Row.getVal r k with
  | .vFloat x => some x
  | _ => none

/-- Dict assignment `r[k] = v`: replace in place if the key is present
(keeping its position, as Python dicts do), else append at the end. -/
def Row.setKey : Row → PyKey → PyVal → Row
  | [], k, v => [(k, v)]
  | (k2, v2) :: rest, k, v =>
    if k2 = k then (k, v) :: rest else (k2, v2) :: Row.setKey rest k v

/-- `parse_date` (app.py lines 18-27).  `if not s or not isinstance(s, str)`
returns `None` for `None`, the empty string, and every non-string value;
otherwise the trimmed string is run through the three formats. -/
def parse_date (v : PyVal) : Option PyDate :=
  match v with
  | .vStr s => if s = "" then none else parse_date_str (pyStrip s)
  | _ => none

/-- `to_float` (app.py lines 29-35): `None` maps to absence, strings go
through Python `float()` (modelled for the plain decimal literal forms:
optional sign, digits, optional fractional part, surrounded by optional
whitespace), any other value raises `TypeError` which the function catches,
yielding absence.  A float value passes through unchanged. -/
def pyFloatBody (cs : List Char) : Option ℚ :=
  let intPart := cs.takeWhile Char.isDigit
  let rest := cs.dropWhile Char.isDigit
  match rest with
  | [] => if intPart.isEmpty then none else some (digitsToNat intPart : ℚ)
  | c :: fracCs =>
    if c == dotChar then
      if fracCs.all Char.isDigit then
        if intPart.isEmpty && fracCs.isEmpty then none
        else some ((digitsToNat intPart : ℚ) +
          (digitsToNat fracCs : ℚ) / ((10 : ℚ) ^ fracCs.length))
      else none
    else none
where
  dotChar : Char := '.'
  digitsToNat (ds : List Char) : Nat := ds.foldl (fun a c => a * 10 + (c.toNat - 48)) 0

/-- `to_float` itself; see `pyFloatBody`. -/
def to_float (v : PyVal) : Option ℚ :=
  match v with
  | .vStr s =>
    match (pyStrip s).data with
    | [] => none
    | c :: rest =>
      if c == plusChar then pyFloatBody rest
      else if c == minusChar then (pyFloatBody rest).map (fun x => -x)
      else pyFloatBody (c :: rest)
  | .vFloat x => some x
  | _ => none
where
  plusChar : Char := '+'
  minusChar : Char := '-'

/-- One data row of `csv.DictReader`: the cells are zipped with the field
names; extra cells of an over-long row are stored under the rest key, and
the trailing field names of a too-short row are filled with `None`
(`restval`). -/
def dictOfRow (fieldnames : List String) (row : List String) : Row :=
  (List.zipWith (fun k v => (PyKey.s k, PyVal.vStr v)) fieldnames row) ++
  (if fieldnames.length < row.length then
    [(PyKey.restkey, PyVal.vRest (row.drop fieldnames.length))]
   else []) ++
  ((fieldnames.drop row.length).map fun k => (PyKey.s k, PyVal.vNone))

/-- The per-row body of `load_rows` (app.py lines 42-45): copy the dict and
attach the two derived fields. -/
def normalize_row (fieldnames : List String) (raw : List String) : Row :=
  let r := dictOfRow fieldnames raw
  let r := Row.setKey r (PyKey.s "Date Submitted Parsed")
    (optDateVal (parse_date (Row.getD r "Date Submitted" (PyVal.vStr ""))))
  Row.setKey r (PyKey.s "Turnaround Float")
    (optFloatVal (to_float (Row.getVal r "Turnaround Time (Days)")))
where
  optDateVal : Option PyDate → PyVal
    | some d => PyVal.vDate d
    | none => PyVal.vNone
  optFloatVal : Option ℚ → PyVal
    | some x => PyVal.vFloat x
    | none => PyVal.vNone

/-- `load_rows` (app.py lines 37-46) over an already-lexed CSV body: the
header row supplies the field names, every non-blank data row is turned into
a dict by `csv.DictReader` (which skips blank rows but nothing else) and is
normalized; rows are returned in file order.  File opening (`InputError`
territory) is outside this model. -/
def load_rows (fieldnames : List String) (data : List (List String)) : List Row :=
  (data.filter fun row => !row.isEmpty).map (normalize_row fieldnames)

/-- Date-range part of the `filter_rows` loop (app.py lines 56-58): the
derived submission date must be present and the row is dropped when
`ds < start or ds > end`. -/
def rowPassesDate (r : Row) (start stop : PyDate) : Bool :=
  match Row.getDate r "Date Submitted Parsed" with
  | none => false
  | some ds => !(dateLt ds start || dateLt stop ds)

/-- Categorical part of the `filter_rows` loop (app.py lines 59-65): every
non-empty allow-list must contain the trimmed field value; an empty
allow-list imposes nothing. -/
def rowPassesFilters (r : Row) (filters : List (String × List String)) : Bool :=
  filters.all fun kv => kv.2.isEmpty || kv.2.contains (pyStrip (Row.getStr r kv.1))

/-- `filter_rows` (app.py lines 52-68).  The source's append loop with
`continue`/`break` keeps exactly the rows passing both predicates, in input
order — i.e. it is this `List.filter`. -/
def filter_rows (rows : List Row) (filters : List (String × List String))
    (date_range : PyDate × PyDate) : List Row :=
  rows.filter fun r => rowPassesDate r date_range.1 date_range.2 && rowPassesFilters r filters

/-- Python `repr` of a list of strings, as stored under the rest key. -/
def pyReprStrList : List String → String
  | [] => ""
  | [a] => "\x27" ++ a ++ "\x27"
  | a :: b :: rest => "\x27" ++ a ++ "\x27, " ++ pyReprStrList (b :: rest)

/-- Python `repr` of a row value, as it appears inside `str(r)`. -/
def pyReprVal : PyVal → String
  | .vNone => "None"
  | .vStr s => "\x27" ++ s ++ "\x27"
  | .vDate d => "datetime.date(" ++ toString d.year ++ ", " ++ toString d.month ++
      ", " ++ toString d.day ++ ")"
  | .vFloat x => if x.den = 1 then toString x.num ++ ".0" else toString x
  | .vRest extras => "[" ++ pyReprStrList extras ++ "]"

/-- Python `repr` of a row key. -/
def pyReprKey : PyKey → String
  | .s k => "\x27" ++ k ++ "\x27"
  | .restkey => "None"

/-- Body of the dict repr: comma-separated `key: value` entries in insertion
order. -/
def pyReprEntries : Row → String
  | [] => ""
  | [(k, v)] => pyReprKey k ++ ": " ++ pyReprVal v
  | (k, v) :: e :: rest => pyReprKey k ++ ": " ++ pyReprVal v ++ ", " ++ pyReprEntries (e :: rest)

/-- `str(r)` on a row dict: `\x7b'k1': v1, 'k2': v2\x7d`.  Floats are
rendered from the model's exact rationals. -/
def str_of_row (r : Row) : String :=
  "\x7b" ++ pyReprEntries r ++ "\x7d"

/-- Python substring `needle in hay` on character lists: helper testing a
match at the head. -/
def listIsPre : List Char → List Char → Bool
  | [], _ => true
  | _ :: _, [] => false
  | a :: as, b :: bs => a == b && listIsPre as bs

/-- Python substring `needle in hay` on character lists. -/
def listSub (needle : List Char) : List Char → Bool
  | [] => needle.isEmpty
  | c :: t => listIsPre needle (c :: t) || listSub needle t

/-- Python `needle in hay` on strings. -/
def strIn (needle hay : String) : Bool :=
  listSub needle.data hay.data

/-- The top-level keyword filter (app.py lines 277-278): when the keyword
list is non-empty, keep the rows whose `str(r).lower()` contains some
`kw.lower()`. -/
def keyword_filter (rows : List Row) (keywords : List String) : List Row :=
  if keywords.isEmpty then rows
  else rows.filter fun r => keywords.any fun kw => strIn (pyLower kw) (pyLower (str_of_row r))

/-- The full sidebar filter as executed at top level (app.py lines 274-278):
`filter_rows` followed by the keyword filter. -/
def apply_filters (rows : List Row) (filters : List (String × List String))
    (date_range : PyDate × PyDate) (keywords : List String) : List Row :=
  keyword_filter (filter_rows rows filters date_range) keywords

/-- The fixed completed-status set of `kpi_values` (app.py lines 75 and 86). -/
def completedSet : List String := ["completed", "done", "closed"]

/-- The completed subset (app.py line 75): trimmed, case-folded status in
`completedSet`. -/
def completed_rows (rows : List Row) : List Row :=
  rows.filter fun r => completedSet.contains (pyLower (pyStrip (Row.getStr r "Status")))

/-- The present turnaround values of a record list (app.py line 78 and the
identical comprehension on line 414). -/
def turnaround_vals (rows : List Row) : List ℚ :=
  rows.filterMap fun r => Row.getFloat r "Turnaround Float"

/-- Non-empty trimmed Contract Type values, in record order — the list the
source feeds to `Counter` (app.py line 80). -/
def contractVals (rows : List Row) : List String :=
  (rows.map fun r => pyStrip (Row.getStr r "Contract Type")).filter fun s => !(s == "")

/-- Distinct elements of a list in order of first occurrence (`seen` holds
the values already emitted) — the key order of a Python `Counter` (dict)
built from the list. -/
def firstOccsAux (seen : List String) : List String → List String
  | [] => []
  | a :: as =>
    if seen.contains a then firstOccsAux seen as
    else a :: firstOccsAux (a :: seen) as

/-- See `firstOccsAux`. -/
def firstOccs (l : List String) : List String := firstOccsAux [] l

/-- `Counter.most_common(1)` selection: walk the remaining keys, replacing
the current best only on a strictly larger count.  This is what
`sorted(items, key=count, reverse=True)[0]` returns, because Python's sort
is stable: on ties the earlier-inserted key stays in front. -/
def bestKey (vals : List String) : List String → String → String
  | [], best => best
  | k :: ks, best =>
    if vals.count best < vals.count k then bestKey vals ks k else bestKey vals ks best

/-- `counts.most_common(1)[0][0] if counts else "—"` (app.py lines 80-81). -/
def most_common_ct (rows : List Row) : String :=
  match firstOccs (contractVals rows) with
  | [] => "—"
  | k :: ks => bestKey (contractVals rows) ks k

/-- The overdue counter of `kpi_values` (app.py lines 86-89): status
case-folded (NOT trimmed) outside the completed set, raw target-completion
value truthy, its parse truthy, and the parsed date strictly before today.
The two `parse_date` calls of the source are the `isSome` test and the
comparison. -/
def overdueCount (rows : List Row) (today : PyDate) : Nat :=
  rows.countP fun r =>
    !(completedSet.contains (pyLower (Row.getStr r "Status"))) &&
    (Row.getVal r "Target Completion Date").truthy &&
    (parse_date (Row.getVal r "Target Completion Date")).isSome &&
    (match parse_date (Row.getVal r "Target Completion Date") with
     | some d => dateLt d today
     | none => false)

/-- The KPI dict returned by `kpi_values` (app.py lines 91-98). -/
structure KPI where
  total : Nat
  avg_turnaround : ℚ
  on_time_pct : ℚ
  most_common_ct : String
  high_priority_pct : ℚ
  overdue : Nat
deriving DecidableEq

/-- `kpi_values` (app.py lines 73-98), with `date.today()` passed in as
`today`. -/
def kpi_values (rows : List Row) (today : PyDate) : KPI :=
  let total := rows.length
  let completed := completed_rows rows
  let on_time := completed.countP fun r =>
    match Row.getFloat r "Turnaround Float" with
    | some t => decide (t ≤ 7)
    | none => false
  let on_time_pct : ℚ :=
    if completed.isEmpty then 0 else (on_time : ℚ) / (completed.length : ℚ) * 100
  let tvals := turnaround_vals rows
  let avg_turnaround : ℚ :=
    if tvals.isEmpty then 0 else tvals.sum / (tvals.length : ℚ)
  let high_priority := rows.countP fun r =>
    ["high", "urgent"].contains (pyLower (Row.getStr r "Priority"))
  let high_priority_pct : ℚ :=
    if total = 0 then 0 else (high_priority : ℚ) / (total : ℚ) * 100
  { total := total
    avg_turnaround := avg_turnaround
    on_time_pct := on_time_pct
    most_common_ct := most_common_ct rows
    high_priority_pct := high_priority_pct
    overdue := overdueCount rows today }

/-- The per-counsel row subset of tab 3 (app.py line 413). -/
def counsel_rows (rows : List Row) (counsel : String) : List Row :=
  rows.filter fun r => pyStrip (Row.getStr r "Assigned Counsel") == counsel

/-- Per-counsel average turnaround of tab 3 (app.py lines 414-415):
`sum(turnaround)/len(turnaround) if turnaround else 0`. -/
def counsel_avg_turnaround (rows : List Row) (counsel : String) : ℚ :=
  let t := turnaround_vals (counsel_rows rows counsel)
  if t.isEmpty then 0 else t.sum / (t.length : ℚ)

/-- Largest count among a list of candidate keys (specification side,
used to state the amended most-common claim). -/
def maxCnt (vals : List String) (keys : List String) : Nat :=
  keys.foldr (fun k m => max (vals.count k) m) 0

/-- The amended overdue predicate (specification side): status case-folded
but not trimmed outside the completed set, and the target-completion date
parses to a date strictly before today.  The raw-truthiness test of the
source is provably redundant. -/
def overdue_spec (r : Row) (today : PyDate) : Bool :=
  !(completedSet.contains (pyLower (Row.getStr r "Status"))) &&
  (match parse_date (Row.getVal r "Target Completion Date") with
   | some d => dateLt d today
   | none => false)

/-- A fixed evaluation time for the concrete examples. -/
def t0 : PyDate := ⟨2025, 10, 12⟩

/-- Row 1 of the end-to-end KPI scenario: completed, turnaround 5. -/
def exRow1 : Row := [(PyKey.s "Status", PyVal.vStr "Completed"), (PyKey.s "Turnaround Float", PyVal.vFloat 5)]

/-- Row 2 of the end-to-end KPI scenario: open, turnaround 10. -/
def exRow2 : Row := [(PyKey.s "Status", PyVal.vStr "Open"), (PyKey.s "Turnaround Float", PyVal.vFloat 10)]

/-- Row 3 of the end-to-end KPI scenario: closed, turnaround 7. -/
def exRow3 : Row := [(PyKey.s "Status", PyVal.vStr "Closed"), (PyKey.s "Turnaround Float", PyVal.vFloat 7)]

/-- The 3-row input of the end-to-end KPI scenario. -/
def ex3 : List Row := [exRow1, exRow2, exRow3]

/-- A row whose Contract Type is the given string. -/
def rowCT (v : String) : Row := [(PyKey.s "Contract Type", PyVal.vStr v)]

/-- Contract-type frequencies B ↦ 2, A ↦ 2, with B occurring first. -/
def rows4 : List Row := [rowCT "B", rowCT "B", rowCT "A", rowCT "A"]

/-- A row whose status is completed after trimming but carries surrounding
whitespace, with a target-completion date far in the past. -/
def overdueRow : Row :=
  [(PyKey.s "Status", PyVal.vStr " Closed "),
   (PyKey.s "Target Completion Date", PyVal.vStr "01/01/2020")]

/-- A row with a parsed submission date in mid-2025. -/
def exDateRow : Row := [(PyKey.s "Date Submitted Parsed", PyVal.vDate ⟨2025, 6, 15⟩)]

/-- A row that is neither completed nor carries a turnaround value. -/
def openRow : Row :=
  [(PyKey.s "Status", PyVal.vStr "Open"),
   (PyKey.s "Turnaround Float", PyVal.vNone),
   (PyKey.s "Assigned Counsel", PyVal.vStr "X")]

/-- C2: date parsing tries day/month/year, then ISO, then month/day/year, and
the first full-string parse wins — so "03/04/2025" is 3 April 2025 even
though the month/day/year format (shown in the second conjunct) would have
read it as 4 March 2025; empty, `None`, and non-string inputs all yield
absence. -/
theorem c2_parse_date :
    parse_date (PyVal.vStr "03/04/2025") = some ⟨2025, 4, 3⟩ ∧
    parseMDY "03/04/2025".data = some ⟨2025, 3, 4⟩ ∧
    parse_date (PyVal.vStr "2025-04-03") = some ⟨2025, 4, 3⟩ ∧
    parse_date PyVal.vNone = none ∧
    parse_date (PyVal.vStr "") = none ∧
    (∀ x : ℚ, parse_date (PyVal.vFloat x) = none) ∧
    (∀ d : PyDate, parse_date (PyVal.vDate d) = none) ∧
    (∀ l : List String, parse_date (PyVal.vRest l) = none) :=
  ⟨by decide, by decide, by decide, rfl, by decide,
   fun _ => rfl, fun _ => rfl, fun _ => rfl⟩

/-- C3: the KPI computation keeps its two denominators distinct — on the
3-row scenario (Completed/5, Open/10, Closed/7) the on-time percentage is
100 (computed over the 2 completed rows only), while the average turnaround
is 22/3 (computed over all 3 rows); the total is 3.  The result does not
depend on the evaluation time. -/
theorem c3_kpi_denominators (today : PyDate) :
    (kpi_values ex3 today).total = 3 ∧
    (kpi_values ex3 today).on_time_pct = 100 ∧
    (kpi_values ex3 today).avg_turnaround = 22 / 3 :=
  ⟨rfl,
   by change ((2 : Nat) : ℚ) / ((2 : Nat) : ℚ) * 100 = 100; norm_num,
   by change ((5 : ℚ) + (10 + (7 + 0))) / ((3 : Nat) : ℚ) = 22 / 3; norm_num⟩

/-- A value that `parse_date` accepts is a non-empty string, hence truthy. -/
theorem truthy_of_parse {v : PyVal} {d : PyDate} (h : parse_date v = some d) :
    PyVal.truthy v = true := by
  cases v with
  | vStr s =>
    by_cases hs : s = ""
    · simp [parse_date, hs] at h
    · simp [PyVal.truthy, hs]
  | vNone => simp [parse_date] at h
  | vDate d2 => simp [parse_date] at h
  | vFloat x => simp [parse_date] at h
  | vRest l => simp [parse_date] at h

/-- Pointwise-equal predicates count the same. -/
theorem countP_ext {α : Type} (p q : α → Bool) (l : List α) (h : ∀ a, p a = q a) :
    l.countP p = l.countP q := by
  induction l with
  | nil => rfl
  | cons a t ih => simp [List.countP_cons, h a, ih]

/-- A filter by an everywhere-false predicate is empty. -/
theorem filter_false_nil {α : Type} (p : α → Bool) (l : List α) (h : ∀ a, p a = false) :
    l.filter p = [] := by
  induction l with
  | nil => rfl
  | cons a t ih => simp [List.filter_cons, h a, ih]

/-- Filtering twice by one predicate is filtering once. -/
theorem filter_idem {α : Type} (p : α → Bool) (l : List α) :
    (l.filter p).filter p = l.filter p := by
  induction l with
  | nil => rfl
  | cons a t ih => cases h : p a <;> simp [List.filter_cons, h, ih]

/-- Re-running a two-stage filter changes nothing. -/
theorem filter_pair_idem {α : Type} (p q : α → Bool) (l : List α) :
    (((l.filter p).filter q).filter p).filter q = (l.filter p).filter q := by
  simp only [List.filter_filter]
  refine List.filter_congr fun a _ => ?_
  cases p a <;> cases q a <;> rfl

/-- C5: the divisions of the aggregator are guarded — no completed records
gives on-time percentage 0, no present turnaround values gives dataset
average 0, and a counsel partition without present turnaround values gives
per-counsel average 0; none of these computations can fail. -/
theorem c5_division_by_zero (rows : List Row) (counsel : String) (today : PyDate) :
    (completed_rows rows = [] → (kpi_values rows today).on_time_pct = 0) ∧
    (turnaround_vals rows = [] → (kpi_values rows today).avg_turnaround = 0) ∧
    (turnaround_vals (counsel_rows rows counsel) = [] →
      counsel_avg_turnaround rows counsel = 0) :=
  ⟨fun h => by simp [kpi_values, h],
   fun h => by simp [kpi_values, h],
   fun h => by simp [counsel_avg_turnaround, h]⟩

/-- C5 witness: a single open row with no turnaround value exercises all
three guarded divisions. -/
theorem c5_witness :
    (kpi_values [openRow] t0).on_time_pct = 0 ∧
    (kpi_values [openRow] t0).avg_turnaround = 0 ∧
    counsel_avg_turnaround [openRow] "Y" = 0 :=
  ⟨(c5_division_by_zero [openRow] "Y" t0).1 (by decide),
   (c5_division_by_zero [openRow] "Y" t0).2.1 (by decide),
   (c5_division_by_zero [openRow] "Y" t0).2.2 (by decide)⟩

/-- C6 counterexample: the overdue counter does NOT trim the status.  The
row with status `" Closed "` (whitespace-padded) and a long-past target date
is counted overdue by the code, although its trimmed, case-folded status is
in the completed set — under the claim's trimmed reading the count would
be 0. -/
theorem c6_counterexample :
    (kpi_values [overdueRow] t0).overdue = 1 ∧
    completedSet.contains (pyLower (pyStrip (Row.getStr overdueRow "Status"))) = true :=
  ⟨by decide, by decide⟩

/-- C6 amended: the overdue count equals the number of records whose
case-folded (but untrimmed) status is outside the completed set and whose
target-completion date parses to a date strictly before `today`; the
source's extra truthiness test on the raw field is redundant, and the count
is a function of the record list and of `today`. -/
theorem c6_overdue_amended (rows : List Row) (today : PyDate) :
    (kpi_values rows today).overdue = rows.countP fun r => overdue_spec r today := by
  show overdueCount rows today = _
  unfold overdueCount
  refine countP_ext _ _ rows fun r => ?_
  unfold overdue_spec
  cases hp : parse_date (Row.getVal r "Target Completion Date") with
  | none => simp [hp]
  | some d => simp [hp, truthy_of_parse hp]

/-- C7 counterexample: with header `A,B`, a well-formed row `1,2` and a
malformed row `3` (one cell short), the loader returns both rows —
`csv.DictReader` pads the short row with `None` instead of skipping it, and
`load_rows` returns a bare list with no warning channel at all. -/
theorem c7_counterexample :
    (load_rows ["A", "B"] [["1", "2"], ["3"]]).length = 2 := by decide

/-- C7 amended: a data row with the wrong column count is not a fatal error
and is NOT skipped — every non-blank row (malformed or not) is normalized
and returned in file order, missing cells becoming `None` and extra cells
collected under the rest key; no warning is recorded anywhere. -/
theorem c7_load_amended (fieldnames : List String) (data : List (List String)) :
    (load_rows fieldnames data).length = data.countP (fun row => !row.isEmpty) ∧
    ∀ raw ∈ data, raw ≠ [] → normalize_row fieldnames raw ∈ load_rows fieldnames data := by
  constructor
  · simp [load_rows, List.countP_eq_length_filter]
  · intro raw hmem hne
    unfold load_rows
    refine List.mem_map_of_mem _ ?_
    simp [List.mem_filter, hmem, List.isEmpty_iff, hne]

/-- C7 witness for the amended statement, at the concrete malformed input. -/
theorem c7_witness :
    (load_rows ["A", "B"] [["1", "2"], ["3"]]).length =
      [["1", "2"], ["3"]].countP (fun row => !row.isEmpty) ∧
    normalize_row ["A", "B"] ["3"] ∈ load_rows ["A", "B"] [["1", "2"], ["3"]] :=
  ⟨(c7_load_amended ["A", "B"] [["1", "2"], ["3"]]).1,
   (c7_load_amended ["A", "B"] [["1", "2"], ["3"]]).2 ["3"] (by decide) (by decide)⟩

/-- C8 counterexample: an inverted date range (start after end) is not
rejected — `filter_rows` has no validation or error path and silently
returns the empty list; the second conjunct shows the bounds are not
swapped either (swapped bounds would keep the row). -/
theorem c8_counterexample :
    filter_rows [exDateRow] [] (⟨2025, 12, 31⟩, ⟨2025, 1, 1⟩) = [] ∧
    filter_rows [exDateRow] [] (⟨2025, 1, 1⟩, ⟨2025, 12, 31⟩) = [exDateRow] :=
  ⟨by decide, by decide⟩

/-- C8 amended: with `start > end` the filter engine performs no validation
and raises nothing: it silently proceeds and returns the empty list (no
submission date can lie in the inverted inclusive interval), and it does
not swap the bounds. -/
theorem c8_amended (rows : List Row) (filters : List (String × List String))
    (start stop : PyDate) (h : dateLt stop start = true) :
    filter_rows rows filters (start, stop) = [] := by
  unfold filter_rows
  refine filter_false_nil _ _ fun r => ?_
  have hd : rowPassesDate r start stop = false := by
    unfold rowPassesDate
    cases hds : Row.getDate r "Date Submitted Parsed" with
    | none => rfl
    | some ds =>
      simp only [dateLt, decide_eq_true_eq] at h
      simp only [dateLt, Bool.not_eq_false', Bool.or_eq_true, decide_eq_true_eq]
      omega
  simp [hd]

/-- C8 witness for the amended statement. -/
theorem c8_witness :
    filter_rows [exDateRow] [] (⟨2025, 12, 31⟩, ⟨2025, 1, 1⟩) = [] :=
  c8_amended [exDateRow] [] ⟨2025, 12, 31⟩ ⟨2025, 1, 1⟩ (by decide)

/-- C9: the sidebar filter (date range, categorical allow-sets, and keyword
search together) is idempotent — applying it to its own output returns that
output unchanged. -/
theorem c9_filter_idempotent (rows : List Row) (filters : List (String × List String))
    (date_range : PyDate × PyDate) (keywords : List String) :
    apply_filters (apply_filters rows filters date_range keywords) filters date_range keywords =
      apply_filters rows filters date_range keywords := by
  unfold apply_filters keyword_filter filter_rows
  by_cases hk : keywords.isEmpty = true
  · rw [if_pos hk, if_pos hk]
    exact filter_idem _ _
  · rw [if_neg hk, if_neg hk]
    exact filter_pair_idem _ _ _

/-- C10: the filter output is a subsequence of its input — every surviving
record is an element of the input list, relative order is preserved, and no
record is duplicated (and, the embedding being purely functional, the input
is untouched). -/
theorem c10_filter_subsequence (rows : List Row) (filters : List (String × List String))
    (date_range : PyDate × PyDate) (keywords : List String) :
    (apply_filters rows filters date_range keywords).Sublist rows := by
  unfold apply_filters keyword_filter filter_rows
  by_cases hk : keywords.isEmpty = true
  · rw [if_pos hk]
    exact List.filter_sublist _
  · rw [if_neg hk]
    exact (List.filter_sublist _).trans (List.filter_sublist _)

/-- Lexicographic `≤` is the negation of the reversed lexicographic `<`. -/
theorem dateLe_iff (a b : PyDate) : dateLe a b = true ↔ dateLt b a = false := by
  simp only [dateLe, dateLt, decide_eq_true_eq, decide_eq_false_iff_not]
  omega

/-- The date predicate of `filter_rows` holds iff the parsed submission date
is present and lies in the inclusive interval. -/
theorem rowPassesDate_iff (r : Row) (start stop : PyDate) :
    rowPassesDate r start stop = true ↔
      ∃ ds, Row.getDate r "Date Submitted Parsed" = some ds ∧
        dateLe start ds = true ∧ dateLe ds stop = true := by
  unfold rowPassesDate
  cases hds : Row.getDate r "Date Submitted Parsed" with
  | none => simp
  | some ds =>
    simp [dateLe_iff, Bool.not_eq_true', Bool.or_eq_false_iff]

/-- The categorical predicate of `filter_rows` holds iff every non-empty
allow-list contains the row's trimmed field value. -/
theorem rowPassesFilters_iff (r : Row) (filters : List (String × List String)) :
    rowPassesFilters r filters = true ↔
      ∀ kv ∈ filters, kv.2 ≠ [] → kv.2.contains (pyStrip (Row.getStr r kv.1)) = true := by
  unfold rowPassesFilters
  rw [List.all_eq_true]
  refine forall_congr' fun kv => ?_
  refine imp_congr_right fun _ => ?_
  cases h2 : kv.2 with
  | nil => simp
  | cons x xs => simp

/-- Membership in `filter_rows` output. -/
theorem filter_rows_mem (rows : List Row) (filters : List (String × List String))
    (date_range : PyDate × PyDate) (r : Row) :
    r ∈ filter_rows rows filters date_range ↔
      r ∈ rows ∧ rowPassesDate r date_range.1 date_range.2 = true ∧
        rowPassesFilters r filters = true := by
  unfold filter_rows
  simp [List.mem_filter]

/-- C1: a record appears in the combined filter output iff it is an input
record whose derived submission date is present and inside the inclusive
interval, every non-empty categorical allow-set contains its trimmed field
value, and — when keywords were supplied — some keyword occurs
case-insensitively inside `str(r)`.  In particular a record with no parsed
submission date never appears. -/
theorem c1_filter_membership (rows : List Row) (filters : List (String × List String))
    (date_range : PyDate × PyDate) (keywords : List String) (r : Row) :
    r ∈ apply_filters rows filters date_range keywords ↔
      r ∈ rows ∧
      (∃ ds, Row.getDate r "Date Submitted Parsed" = some ds ∧
        dateLe date_range.1 ds = true ∧ dateLe ds date_range.2 = true) ∧
      (∀ kv ∈ filters, kv.2 ≠ [] → kv.2.contains (pyStrip (Row.getStr r kv.1)) = true) ∧
      (keywords ≠ [] → ∃ kw ∈ keywords, strIn (pyLower kw) (pyLower (str_of_row r)) = true) := by
  unfold apply_filters keyword_filter
  by_cases hk : keywords.isEmpty = true
  · rw [if_pos hk, filter_rows_mem]
    have hkeq : keywords = [] := List.isEmpty_iff.mp hk
    simp [hkeq, rowPassesDate_iff, rowPassesFilters_iff]
  · rw [if_neg hk, List.mem_filter, filter_rows_mem]
    have hkne : keywords ≠ [] := fun hc => hk (by simp [hc])
    simp only [rowPassesDate_iff, rowPassesFilters_iff, List.any_eq_true, hkne,
      ne_eq, not_false_eq_true, forall_true_left]
    tauto

/-- C4 counterexample: with contract-type frequencies B ↦ 2, A ↦ 2 (B first
in the data), `Counter.most_common(1)` returns "B", not the
lexicographically smallest "A" the claim requires — the tie-break is
first occurrence, not lexicographic order. -/
theorem c4_counterexample :
    (kpi_values rows4 t0).most_common_ct = "B" ∧
    (contractVals rows4).count "A" = 2 ∧ (contractVals rows4).count "B" = 2 :=
  ⟨by decide, by decide, by decide⟩

/-- `maxCnt` unfolds one key at a time. -/
theorem maxCnt_cons (vals : List String) (a : String) (l : List String) :
    maxCnt vals (a :: l) = max (vals.count a) (maxCnt vals l) := rfl

/-- One step of `List.find?` when the head satisfies the predicate. -/
theorem find?_cons_true {α : Type} (p : α → Bool) (a : α) (l : List α) (h : p a = true) :
    List.find? p (a :: l) = some a := by
  simp [List.find?, h]

/-- One step of `List.find?` when the head fails the predicate. -/
theorem find?_cons_false {α : Type} (p : α → Bool) (a : α) (l : List α) (h : p a = false) :
    List.find? p (a :: l) = List.find? p l := by
  simp [List.find?, h]

/-- The `most_common(1)` scan returns the first candidate key attaining the
maximal count: Python's stable descending sort puts exactly that key in
front. -/
theorem bestKey_find (vals : List String) (ks : List String) :
    ∀ best, List.find? (fun k => vals.count k == maxCnt vals (best :: ks)) (best :: ks) =
      some (bestKey vals ks best) := by
  induction ks with
  | nil =>
    intro best
    have h : (vals.count best == maxCnt vals [best]) = true := by
      rw [maxCnt_cons vals best []]
      simp [maxCnt, Nat.max_zero]
    rw [find?_cons_true (fun k => vals.count k == maxCnt vals [best]) best [] h]
    rfl
  | cons k ks ih =>
    intro best
    by_cases hcb : vals.count best < vals.count k
    · have hbk : bestKey vals (k :: ks) best = bestKey vals ks k := by
        simp [bestKey, hcb]
      have hM : maxCnt vals (best :: k :: ks) = maxCnt vals (k :: ks) := by
        rw [maxCnt_cons vals best (k :: ks), maxCnt_cons vals k ks]
        omega
      have hpb : (vals.count best == maxCnt vals (k :: ks)) = false := by
        rw [maxCnt_cons vals k ks, beq_eq_false_iff_ne]
        omega
      rw [hbk, hM,
        find?_cons_false (fun k2 => vals.count k2 == maxCnt vals (k :: ks)) best (k :: ks) hpb]
      exact ih k
    · have hbk : bestKey vals (k :: ks) best = bestKey vals ks best := by
        simp [bestKey, hcb]
      have hM2 : maxCnt vals (best :: k :: ks) = maxCnt vals (best :: ks) := by
        rw [maxCnt_cons vals best (k :: ks), maxCnt_cons vals k ks, maxCnt_cons vals best ks]
        omega
      rw [hbk, hM2]
      by_cases hpb : (vals.count best == maxCnt vals (best :: ks)) = true
      · rw [find?_cons_true (fun k2 => vals.count k2 == maxCnt vals (best :: ks)) best (k :: ks) hpb]
        have hih := ih best
        rw [find?_cons_true (fun k2 => vals.count k2 == maxCnt vals (best :: ks)) best ks hpb] at hih
        exact hih
      · have hpb2 : (vals.count best == maxCnt vals (best :: ks)) = false :=
          Bool.eq_false_iff.mpr hpb
        have hpk : (vals.count k == maxCnt vals (best :: ks)) = false := by
          rw [maxCnt_cons vals best ks] at hpb2 ⊢
          rw [beq_eq_false_iff_ne] at hpb2
          rw [beq_eq_false_iff_ne]
          omega
        rw [find?_cons_false (fun k2 => vals.count k2 == maxCnt vals (best :: ks)) best (k :: ks) hpb2,
          find?_cons_false (fun k2 => vals.count k2 == maxCnt vals (best :: ks)) k ks hpk]
        have hih := ih best
        rw [find?_cons_false (fun k2 => vals.count k2 == maxCnt vals (best :: ks)) best ks hpb2] at hih
        exact hih

/-- C4 amended: the most-common contract type is the first value — in order
of first occurrence among the non-empty trimmed Contract Type values — whose
frequency is maximal (ties are broken by earliest first occurrence, not
lexicographically); when no non-empty value exists, the sentinel "—" is
returned. -/
theorem c4_most_common_amended (rows : List Row) :
    most_common_ct rows =
      ((firstOccs (contractVals rows)).find? (fun k =>
        (contractVals rows).count k ==
          maxCnt (contractVals rows) (firstOccs (contractVals rows)))).getD "—" := by
  unfold most_common_ct
  cases h : firstOccs (contractVals rows) with
  | nil => rfl
  | cons k ks =>
    rw [bestKey_find (contractVals rows) ks k]
    rfl
